import Mathlib

/-!
Shallow embedding of the goajax JSON-RPC server (package `goajax`,
file containing `Server`, `register`, `ServeHTTP`, `sendError`, `getParams`).

The embedding models:
  * JSON values (`Json`) as received on the wire after parsing;
  * Go runtime values (`GoValue`) as produced by `json.Unmarshal` and by
    reflective method calls;
  * the reflect-level type shapes that can appear as method argument and
    result types (`GoType`);
  * the service registry (`service`, `methodType`, `Server`);
  * registration (`register`) and dispatch (`ServeHTTP`, `getParams`,
    `sendError`).

Machine-level JSON parsing and HTTP transport are external collaborators:
the request body is represented by its decode outcome
(`Option jsonRequest`, `none` = decode error), and the bytes written by the
handler are represented by the `Written` inductive (the `sendError` fixed
literal versus an encoded `jsonResponse` envelope).  Go panics that the
dispatcher itself can trigger (index out of range on the split method name,
nil-pointer dereference of the `params` field, and the reflect call on the
nil interface produced by generically decoding a JSON null parameter) are
modelled explicitly as the `panicked` outcomes.
-/

/-- JSON values.  Numbers are modelled as rationals paired with a flag
recording whether the wire literal was a plain integer literal (no
fraction or exponent): generic decoding turns every number into a
`float64` regardless, but the stdlib decode of a number into an integer
struct field converts from the literal text and accepts only integer
literals (`3` decodes into an `int` field, `3.0` does not). -/
inductive Json where
  | null
  | bool (b : Bool)
  | num (q : Rat) (intLit : Bool)
  | str (s : String)
  | arr (elems : List Json)
  | obj (fields : List (String × Json))

/-- Go runtime values flowing through the dispatcher: results of generic
`json.Unmarshal` into `interface{}`, decoded method arguments, and method
return values. -/
inductive GoValue where
  | vNil
  | vBool (b : Bool)
  | vInt (n : Int)
  | vFloat64 (q : Rat)
  | vString (s : String)
  | vArr (elems : List GoValue)
  | vMap (fields : List (String × GoValue))
  | vStruct (fields : List (String × GoValue))
  | vPtr (pointee : GoValue)

/-- Reflect-level type shapes that occur as method argument/result types.
`goPtr` is a pointer-to-struct type (`*reflect.PtrType` in the source),
carrying the element type's name and package path (used by the export
checks in `register`) and its field layout (used by `json.Unmarshal`). -/
inductive GoType where
  | goBool
  | goInt
  | goFloat64
  | goString
  | goPtr (elemName : String) (elemPkgPath : String) (fields : List (String × GoType))

/-- Zero value of a type, as produced by `reflect.MakeZero`: the zero of a
pointer type is the nil pointer. -/
def zeroValue : GoType → GoValue
  | .goBool => .vBool false
  | .goInt => .vInt 0
  | .goFloat64 => .vFloat64 0
  | .goString => .vString ""
  | .goPtr _ _ _ => .vNil

/-- Truncation of a rational toward zero, the integer conversion performed
by Go's `int(v.(float64))` for values in range. -/
def ratTrunc (q : Rat) : Int :=
  if 0 ≤ q.num then Int.ofNat (q.num.toNat / q.den)
  else - Int.ofNat ((- q.num).toNat / q.den)

mutual

/-- Generic decoding `json.Unmarshal(raw, &v)` for `v interface{}`:
null ↦ nil, booleans ↦ bool, numbers ↦ float64, strings ↦ string,
arrays ↦ `[]interface{}`, objects ↦ `map[string]interface{}`. -/
def genericDecode : Json → GoValue
  | .null => .vNil
  | .bool b => .vBool b
  | .num q _ => .vFloat64 q
  | .str s => .vString s
  | .arr l => .vArr (genericDecodeList l)
  | .obj l => .vMap (genericDecodeFields l)

def genericDecodeList : List Json → List GoValue
  | [] => []
  | j :: rest => genericDecode j :: genericDecodeList rest

def genericDecodeFields : List (String × Json) → List (String × GoValue)
  | [] => []
  | (k, j) :: rest => (k, genericDecode j) :: genericDecodeFields rest

end

mutual

/-- Decoding one struct field (`json.Unmarshal` semantics): JSON null is a
no-op leaving the zero value; scalars must match the field's type, where a
number stored into an integer field is converted from the literal text and
accepted only when the wire literal is an integer literal; a
pointer-to-struct field is allocated and filled from a JSON object. -/
def fieldDecode : GoType → Json → Option GoValue
  | t, .null => some (zeroValue t)
  | .goBool, .bool b => some (.vBool b)
  | .goInt, .num q il => if il then some (.vInt q.num) else none
  | .goFloat64, .num q _ => some (.vFloat64 q)
  | .goString, .str s => some (.vString s)
  | .goPtr _ _ fs, .obj kvs =>
    match decodeFields fs kvs with
    | some l => some (.vPtr (.vStruct l))
    | none => none
  | _, _ => none

/-- Decoding the declared fields of a struct from the key/value pairs of a
JSON object: a missing key leaves the field at its zero value, a present
key must decode at the field's type; unknown JSON keys are ignored. -/
def decodeFields : List (String × GoType) → List (String × Json) → Option (List (String × GoValue))
  | [], _ => some []
  | (fname, ftype) :: rest, kvs =>
    match List.lookup fname kvs with
    | none =>
      match decodeFields rest kvs with
      | some l => some ((fname, zeroValue ftype) :: l)
      | none => none
    | some jv =>
      match fieldDecode ftype jv with
      | none => none
      | some v =>
        match decodeFields rest kvs with
        | some l => some ((fname, v) :: l)
        | none => none

end

/-- Decoding `json.Unmarshal(raw, ptrToZeroStruct)` used in the pointer
branch of `getParams`: JSON null is a no-op (the struct stays zero), a
JSON object decodes field-wise, anything else is a structural mismatch. -/
def structUnmarshal (fs : List (String × GoType)) : Json → Option GoValue
  | .null => some (.vStruct (fs.map fun p => (p.1, zeroValue p.2)))
  | .obj kvs =>
    match decodeFields fs kvs with
    | some l => some (.vStruct l)
    | none => none
  | _ => none

/-- Exact dynamic-type equality test `value.Type() == arg.Type()` between a
generic decoded value and a target argument type. -/
def typeEq (v : GoValue) (t : GoType) : Bool :=
  match v, t with
  | .vBool _, .goBool => true
  | .vInt _, .goInt => true
  | .vFloat64 _, .goFloat64 => true
  | .vString _, .goString => true
  | _, _ => false

/-- Predicate: the value is a floating-point number
(`value.Type().(*reflect.FloatType)` succeeds). -/
def isFloatVal : GoValue → Bool
  | .vFloat64 _ => true
  | _ => false

/-- Predicate: the type shape is scalar (not `*reflect.PtrType`). -/
def isScalar : GoType → Bool
  | .goPtr _ _ _ => false
  | _ => true

/-- Message of the type-mismatch error raised for the 1-based parameter
position `k`. -/
def tmMsg (k : Nat) : String := "Type mismatch parameter " ++ toString k ++ "."

/-- Outcome of decoding one parameter: a decoded value, an error value, or
a Go panic escaping the loop. -/
inductive ParamDecode where
  | ok (v : GoValue)
  | err (msg : String)
  | panicked

/-- Outcome of `getParams`: decoded arguments, an error value whose
`String()` the dispatcher forwards, or a Go panic. -/
inductive ParamsResult where
  | ok (args : List GoValue)
  | err (msg : String)
  | panicked

/-- Decoding of the single parameter at 0-based index `i` (the body of the
`for` loop of `getParams`): a pointer type is structurally unmarshalled,
a scalar type is generically decoded then accepted on exact type equality
or coerced float-to-int.  A JSON null in a scalar position generically
decodes to the nil interface, and the source then runs
`reflect.NewValue(v)` — which is nil under the pre-rewrite reflect API —
and calls `.Type()` on it: a panic, not a decode error. -/
def decodeParam (i : Nat) (argType : GoType) (raw : Json) : ParamDecode :=
  match argType with
  | .goPtr _ _ fs =>
    match structUnmarshal fs raw with
    | some v => .ok (.vPtr v)
    | none => .err (tmMsg (i + 1))
  | t =>
    match genericDecode raw with
    | .vNil => .panicked
    | v =>
      if typeEq v t then .ok v
      else
        match v with
        | .vFloat64 q =>
          match t with
          | .goInt => .ok (.vInt (ratTrunc q))
          | _ => .err (tmMsg (i + 1))
        | _ => .err (tmMsg (i + 1))

/-- Decoding loop of `getParams` over positions, with `i` the 0-based index
of the first remaining position; stops at the first failing (or panicking)
position. -/
def decodeLoop (i : Nat) : List GoType → List Json → ParamsResult
  | [], _ => .ok []
  | _ :: _, [] => .ok []
  | t :: ts, raw :: raws =>
    match decodeParam i t raw with
    | .err m => .err m
    | .panicked => .panicked
    | .ok v =>
      match decodeLoop (i + 1) ts raws with
      | .err m => .err m
      | .panicked => .panicked
      | .ok vs => .ok (v :: vs)

/-- Modelled from the stdlib: the description of the `json.Unmarshal` error
returned when the `params` value is not decodable into
`[]*json.RawMessage`; its precise text is owned by the `json` package, the
dispatcher only forwards it.  It is distinct from every message this
package builds itself. -/
def unmarshalArrayFailMsg : String :=
  "json: cannot unmarshal value into Go value of type []*json.RawMessage"

/-- Splitting of the raw `params` value into raw messages,
`json.Unmarshal(*req.Params, &params)` for `params []*json.RawMessage`:
an array yields its elements, null is a no-op leaving the empty slice,
anything else is an unmarshal error. -/
def decodeRawList : Json → Option (List Json)
  | .arr l => some l
  | .null => some []
  | _ => none

/-- Embedding of `getParams` (lines 232-283 of the source).  The `params`
field of the request is `none` when absent or JSON null, in which case the
source dereferences the nil `*json.RawMessage` and panics. -/
def getParams (paramsField : Option Json) (argTypes : List GoType) : ParamsResult :=
  match paramsField with
  | none => .panicked
  | some pj =>
    match decodeRawList pj with
    | none => .err unmarshalArrayFailMsg
    | some params =>
      if params.length ≠ argTypes.length then .err "Incorrect number of parameters."
      else decodeLoop 0 argTypes params

/-- Per-method metadata (`methodType` in the source): declared argument
shapes (receiver excluded), result shape, call counter, and the method's
function.  The function takes the receiver-prefixed argument list (as in
`function.Call(args)`) and returns the pair (first return value, error):
`none` models a nil `os.Error`, `some s` a non-nil error whose `String()`
is `s`. -/
structure methodType where
  argTypes : List GoType
  returnType : GoType
  numCalls : Nat
  fn : List GoValue → GoValue × Option String

/-- One registered service: resolved name, receiver value, and the method
table.  The Go map is modelled as an association list looked up by first
match. -/
structure service where
  name : String
  rcvr : GoValue
  methods : List (String × methodType)

/-- The server, holding the service registry map. -/
structure Server where
  serviceMap : List (String × service)

/-- Server with an empty registry, as built by `NewServer`. -/
def NewServer : Server := ⟨[]⟩

/-- Exported-name test `isExported` of the source: true iff the first rune
is upper case (the empty string decodes to `RuneError`, which is not upper
case). -/
def isExported (s : String) : Bool :=
  match s.data with
  | [] => false
  | c :: _ => c.isUpper

/-- Reflection data of one candidate method of the receiver, as observed by
the registration loop: name, `PkgPath` of the method type, input types with
the receiver excluded (`mtype.In(i)` for `i ≥ 1`), output types, whether
`mtype.Out(1)` is exactly `os.Error`, and the callable function. -/
structure GoMethodInfo where
  mname : String
  typePkgPath : String
  inTypes : List GoType
  outTypes : List GoType
  out1IsOsError : Bool
  fn : List GoValue → GoValue × Option String

/-- Reflection data of a receiver instance passed to `Register`:
`Indirect(rcvr).Type().Name()`, `Typeof(rcvr).PkgPath()`, the receiver
value, and the candidate methods. -/
structure GoRcvr where
  typeName : String
  typPkgPath : String
  val : GoValue
  methods : List GoMethodInfo

/-- Argument-type scan of the registration loop: collects the input types,
and rejects the whole method (`continue MethodLoop`) when some argument is
a pointer whose element type is unexported. -/
def collectArgs : List GoType → Option (List GoType)
  | [] => some []
  | t :: ts =>
    match t with
    | .goPtr en ep fs =>
      if ep ≠ "" && !(isExported en) then none
      else
        match collectArgs ts with
        | some l => some (.goPtr en ep fs :: l)
        | none => none
    | _ =>
      match collectArgs ts with
      | some l => some (t :: l)
      | none => none

/-- Export check on the method's first output type: a pointer result whose
element type is unexported disqualifies the method. -/
def retOk : GoType → Bool
  | .goPtr en ep _ => !(ep ≠ "" && !(isExported en))
  | _ => true

/-- Eligibility of one candidate method (one iteration of the `MethodLoop`
of `register`): exported name, no unexported pointer argument, exactly two
outputs, exported result type, second output exactly `os.Error`.  Returns
the built descriptor, or `none` when the method is skipped. -/
def installMethod (m : GoMethodInfo) : Option methodType :=
  if m.typePkgPath ≠ "" || !(isExported m.mname) then none
  else
    match collectArgs m.inTypes with
    | none => none
    | some args =>
      if m.outTypes.length ≠ 2 then none
      else
        match m.outTypes.head? with
        | none => none
        | some rt =>
          if !(retOk rt) then none
          else if !m.out1IsOsError then none
          else some { argTypes := args, returnType := rt, numCalls := 0, fn := m.fn }

/-- Insertion into a Go map modelled on an association list: replace the
first binding of the key, or append a new binding. -/
def mapInsert {α : Type} : List (String × α) → String → α → List (String × α)
  | [], k, v => [(k, v)]
  | (k', v') :: rest, k, v =>
    if k' = k then (k, v) :: rest else (k', v') :: mapInsert rest k v

/-- Method-table construction of `register`: each eligible candidate is
stored under its name (`s.method[mname] = ...`). -/
def installMethods (ms : List GoMethodInfo) : List (String × methodType) :=
  ms.foldl
    (fun acc m =>
      match installMethod m with
      | none => acc
      | some mt => mapInsert acc m.mname mt)
    []

/-- Outcome of `register`: `fatal` models the `log.Exit` process abort on
an empty service name, `errOut` an error return (carrying the unchanged
server), `ok` a successful insertion. -/
inductive RegisterResult where
  | fatal
  | errOut (msg : String) (server : Server)
  | ok (server : Server)

/-- Embedding of `register` (lines 61-135 of the source). -/
def register (server : Server) (rcvr : GoRcvr) (name : String) (useName : Bool) : RegisterResult :=
  let sname := if useName then name else rcvr.typeName
  if sname = "" then .fatal
  else if rcvr.typPkgPath ≠ "" && !(isExported sname) && !useName then
    .errOut ("rpc Register: type " ++ sname ++ " is not exported") server
  else if (List.lookup sname server.serviceMap).isSome then
    .errOut ("rpc: service already defined: " ++ sname) server
  else
    let methods := installMethods rcvr.methods
    if methods.length = 0 then
      .errOut ("rpc Register: type " ++ sname ++ " has no exported methods of suitable type") server
    else .ok ⟨mapInsert server.serviceMap sname ⟨sname, rcvr.val, methods⟩⟩

/-- Embedding of the exported `Register`. -/
def Server.Register (server : Server) (rcvr : GoRcvr) : RegisterResult :=
  register server rcvr "" false

/-- Embedding of the exported `RegisterName`. -/
def Server.RegisterName (server : Server) (name : String) (rcvr : GoRcvr) : RegisterResult :=
  register server rcvr name true

/-- Embedding of `strings.Split(s, ".", -1)` on the character list:
splits on every occurrence of `'.'`, never returns the empty list. -/
def splitDot : List Char → List (List Char)
  | [] => [[]]
  | c :: rest =>
    if c = '.' then [] :: splitDot rest
    else
      match splitDot rest with
      | [] => [[c]]
      | r :: rs => (c :: r) :: rs

/-- Splitting of the request's method string on every `"."`. -/
def splitOnDot (s : String) : List String :=
  (splitDot s.data).map String.mk

/-- Decoded request envelope (`jsonRequest`): `Id` and `Params` are
`*json.RawMessage` fields, `none` when the member is absent or JSON null. -/
structure jsonRequest where
  Id : Option Json
  Method : String
  Params : Option Json

/-- Response envelope (`jsonResponse`): `Result` and `Error` are
`interface{}` fields, `none` modelling the nil interface. -/
structure jsonResponse where
  Id : Option Json
  Result : Option GoValue
  Error : Option String

/-- Bytes written by the handler: either the fixed `sendError` literal
`{"jsonrpc": "2.0", "id":null, "error": msg}` or an encoded
`jsonResponse`. -/
inductive Written where
  | fixedError (msg : String)
  | envelope (resp : jsonResponse)

/-- Identifier carried by a written body: the `sendError` literal always
carries JSON null. -/
def writtenId : Written → Option Json
  | .fixedError _ => none
  | .envelope r => r.Id

/-- Outcome of one `ServeHTTP` call: a written body together with the
server state (call counters) after the request, or an escaped Go panic. -/
inductive HttpResult where
  | wrote (out : Written) (server : Server)
  | panicked (server : Server)

/-- Increment of `numCalls` on the first binding of `mname` in a method
table (the in-place `mtype.numCalls++`). -/
def bumpMethod : List (String × methodType) → String → List (String × methodType)
  | [], _ => []
  | (k, mt) :: rest, mname =>
    if k = mname then (k, { mt with numCalls := mt.numCalls + 1 }) :: rest
    else (k, mt) :: bumpMethod rest mname

/-- Increment of the call counter of method `mname` of service `sname` in
the registry map. -/
def bumpService : List (String × service) → String → String → List (String × service)
  | [], _, _ => []
  | (k, s) :: rest, sname, mname =>
    if k = sname then (k, { s with methods := bumpMethod s.methods mname }) :: rest
    else (k, s) :: bumpService rest sname mname

/-- Invocation step of `ServeHTTP` (lines 195-224 of the source): counter
increment, reflective call with the receiver prepended, error/result
selection (`errmsg` is empty for a nil error), identifier echo, encoding. -/
def runMethod (server : Server) (req : jsonRequest) (sname mname : String)
    (svc : service) (mt : methodType) (args : List GoValue) : HttpResult :=
  let server' : Server := ⟨bumpService server.serviceMap sname mname⟩
  let r := mt.fn (svc.rcvr :: args)
  let errmsg := match r.2 with | none => "" | some s => s
  let resp : jsonResponse :=
    if errmsg ≠ "" then { Id := req.Id, Result := none, Error := some errmsg }
    else { Id := req.Id, Result := some r.1, Error := none }
  .wrote (.envelope resp) server'

/-- Routing and dispatch of a successfully decoded request (lines 170-224
of the source).  Note the source indexes `serviceMethod[1]` only after the
service lookup has succeeded; when the split produced fewer than two
components that access panics (index out of range). -/
def dispatch (server : Server) (req : jsonRequest) : HttpResult :=
  let parts := splitOnDot req.Method
  match parts.get? 0 with
  | none => .panicked server
  | some sname =>
    match List.lookup sname server.serviceMap with
    | none => .wrote (.fixedError "Service not found.") server
    | some svc =>
      match parts.get? 1 with
      | none => .panicked server
      | some mname =>
        match List.lookup mname svc.methods with
        | none => .wrote (.fixedError "Method not found.") server
        | some mt =>
          match getParams req.Params mt.argTypes with
          | .panicked => .panicked server
          | .err msg => .wrote (.fixedError msg) server
          | .ok args => runMethod server req sname mname svc mt args

/-- Embedding of `ServeHTTP` (lines 158-225).  The body decode performed by
`json.NewDecoder(r.Body).Decode(req)` is represented by its outcome:
`none` models a decode error, upon which the fixed `"Invalid JSON-RPC."`
literal is written and the handler returns without touching the registry. -/
def ServeHTTP (server : Server) (decoded : Option jsonRequest) : HttpResult :=
  match decoded with
  | none => .wrote (.fixedError "Invalid JSON-RPC.") server
  | some req => dispatch server req

/-- Call counter currently recorded for method `mn` of service `sn` (zero
when the service or method is absent). -/
def callCount (server : Server) (sn mn : String) : Nat :=
  match List.lookup sn server.serviceMap with
  | none => 0
  | some svc =>
    match List.lookup mn svc.methods with
    | none => 0
    | some mt => mt.numCalls

/-! Helper lemmas about the parameter decoder. -/

/-- Strings starting with the type-mismatch text differ from the arity
message. -/
theorem append_ne_arity (s t : String) :
    ("Type mismatch parameter " ++ s ++ t) ≠ "Incorrect number of parameters." := by
  intro h
  have h2 := congrArg (fun x => x.data.head?) h
  simp [String.append] at h2

/-- Type-mismatch messages differ from the arity message. -/
theorem tmMsg_ne_arity (k : Nat) : tmMsg k ≠ "Incorrect number of parameters." :=
  append_ne_arity _ _

/-- The stdlib unmarshal-failure message differs from the arity message. -/
theorem unmarshalMsg_ne_arity :
    unmarshalArrayFailMsg ≠ "Incorrect number of parameters." := by
  intro h
  have h2 := congrArg (fun x => x.data.head?) h
  simp [unmarshalArrayFailMsg, String.append] at h2

/-- The generic decoder yields the nil interface exactly on JSON null. -/
theorem genericDecode_vNil_iff (raw : Json) : genericDecode raw = .vNil ↔ raw = .null := by
  cases raw <;> simp [genericDecode]

/-- Every error produced by `decodeParam` is a type-mismatch message for
the 1-based position. -/
theorem decodeParam_error_shape (i : Nat) (t : GoType) (raw : Json) (m : String)
    (h : decodeParam i t raw = .err m) : m = tmMsg (i + 1) := by
  rcases t with _ | _ | _ | _ | ⟨en, ep, fs⟩
  case goPtr =>
    simp only [decodeParam] at h
    rcases hs : structUnmarshal fs raw with _ | v <;> rw [hs] at h <;> simp_all
  all_goals {
    simp only [decodeParam] at h
    rcases hv : genericDecode raw with _ | b | n | q | s | l | l | l | p <;>
      rw [hv] at h <;> simp_all [typeEq]
  }

/-- Every error produced by the decoding loop is a type-mismatch message. -/
theorem decodeLoop_error_shape (ts : List GoType) (raws : List Json) (i : Nat) (m : String)
    (h : decodeLoop i ts raws = .err m) : ∃ k, m = tmMsg k := by
  induction ts generalizing raws i with
  | nil => simp [decodeLoop] at h
  | cons t ts ih =>
    rcases raws with _ | ⟨raw, raws⟩
    · simp [decodeLoop] at h
    · unfold decodeLoop at h
      rcases hp : decodeParam i t raw with v | m' | _ <;> rw [hp] at h
      · rcases hl : decodeLoop (i + 1) ts raws with vs | m' | _ <;> rw [hl] at h
        · cases h
        · cases h
          exact ih raws (i + 1) hl
        · cases h
      · cases h
        exact ⟨i + 1, decodeParam_error_shape i t raw m hp⟩
      · cases h

/-! Helper lemmas about the call-counter update. -/

/-- Boolean string equality is false on distinct strings. -/
theorem str_beq_false (a b : String) (h : a ≠ b) : (a == b) = false := by
  cases hab : a == b
  · rfl
  · exact absurd (eq_of_beq hab) h

/-- Bumping a method table changes only the looked-up binding of the bumped
name. -/
theorem lookup_bumpMethod_self (ms : List (String × methodType)) (mn : String) :
    List.lookup mn (bumpMethod ms mn)
      = (List.lookup mn ms).map (fun mt => { mt with numCalls := mt.numCalls + 1 }) := by
  induction ms with
  | nil => simp [bumpMethod]
  | cons p rest ih =>
    rcases p with ⟨k, mt⟩
    by_cases hk : k = mn
    · subst hk
      simp [bumpMethod, List.lookup]
    · have hbe : (mn == k) = false := str_beq_false _ _ (Ne.symm hk)
      simp only [bumpMethod, if_neg hk, List.lookup, hbe]
      exact ih

/-- Bumping a method table leaves other names' lookups unchanged. -/
theorem lookup_bumpMethod_other (ms : List (String × methodType)) (mn mn' : String)
    (h : mn' ≠ mn) : List.lookup mn' (bumpMethod ms mn) = List.lookup mn' ms := by
  induction ms with
  | nil => simp [bumpMethod]
  | cons p rest ih =>
    rcases p with ⟨k, mt⟩
    by_cases hk : k = mn
    · subst hk
      have hbe : (mn' == k) = false := str_beq_false _ _ h
      simp only [bumpMethod, if_pos rfl, List.lookup, hbe]
    · simp only [bumpMethod, if_neg hk, List.lookup]
      by_cases hk' : mn' = k
      · simp [hk']
      · have hbe : (mn' == k) = false := str_beq_false _ _ hk'
        simp only [hbe]
        exact ih

/-- Bumping the registry changes only the looked-up binding of the bumped
service. -/
theorem lookup_bumpService_self (sm : List (String × service)) (sn mn : String) :
    List.lookup sn (bumpService sm sn mn)
      = (List.lookup sn sm).map (fun s => { s with methods := bumpMethod s.methods mn }) := by
  induction sm with
  | nil => simp [bumpService]
  | cons p rest ih =>
    rcases p with ⟨k, s⟩
    by_cases hk : k = sn
    · subst hk
      simp [bumpService, List.lookup]
    · have hbe : (sn == k) = false := str_beq_false _ _ (Ne.symm hk)
      simp only [bumpService, if_neg hk, List.lookup, hbe]
      exact ih

/-- Bumping the registry leaves other services' lookups unchanged. -/
theorem lookup_bumpService_other (sm : List (String × service)) (sn mn sn' : String)
    (h : sn' ≠ sn) : List.lookup sn' (bumpService sm sn mn) = List.lookup sn' sm := by
  induction sm with
  | nil => simp [bumpService]
  | cons p rest ih =>
    rcases p with ⟨k, s⟩
    by_cases hk : k = sn
    · subst hk
      have hbe : (sn' == k) = false := str_beq_false _ _ h
      simp only [bumpService, if_pos rfl, List.lookup, hbe]
    · simp only [bumpService, if_neg hk, List.lookup]
      by_cases hk' : sn' = k
      · simp [hk']
      · have hbe : (sn' == k) = false := str_beq_false _ _ hk'
        simp only [hbe]
        exact ih

/-- Effect of a bump on the counter of the bumped method, when that method
exists. -/
theorem callCount_bump_self (server : Server) (sn mn : String) (svc : service)
    (mt : methodType) (hs : List.lookup sn server.serviceMap = some svc)
    (hm : List.lookup mn svc.methods = some mt) :
    callCount ⟨bumpService server.serviceMap sn mn⟩ sn mn = callCount server sn mn + 1 := by
  unfold callCount
  simp [lookup_bumpService_self, hs, lookup_bumpMethod_self, hm]

/-- A bump leaves every other (service, method) counter unchanged. -/
theorem callCount_bump_other (server : Server) (sn mn sn' mn' : String)
    (h : sn' ≠ sn ∨ mn' ≠ mn) :
    callCount ⟨bumpService server.serviceMap sn mn⟩ sn' mn' = callCount server sn' mn' := by
  unfold callCount
  by_cases hsn : sn' = sn
  · subst hsn
    rcases h with h | h
    · exact absurd rfl h
    · simp only [lookup_bumpService_self]
      rcases hs : List.lookup sn' server.serviceMap with _ | svc
      · simp
      · simp [lookup_bumpMethod_other _ _ _ h]
  · simp [lookup_bumpService_other _ _ _ _ hsn]

/-! Helper lemmas about method-name splitting. -/

/-- The split never produces the empty list. -/
theorem splitDot_ne_nil (l : List Char) : splitDot l ≠ [] := by
  induction l with
  | nil => simp [splitDot]
  | cons c rest ih =>
    unfold splitDot
    by_cases hc : c = '.'
    · simp [hc]
    · simp only [if_neg hc]
      rcases h : splitDot rest with _ | ⟨r, rs⟩ <;> simp

/-- A character list without a dot splits into exactly itself. -/
theorem splitDot_no_dot (l : List Char) (h : '.' ∉ l) : splitDot l = [l] := by
  induction l with
  | nil => simp [splitDot]
  | cons c rest ih =>
    have hc : c ≠ '.' := by
      intro hc
      exact h (by simp [hc])
    have hrest : '.' ∉ rest := by
      intro hr
      exact h (by simp [hr])
    unfold splitDot
    simp [if_neg hc, ih hrest]

/-- A method string without a dot splits into the one-element list holding
the whole string. -/
theorem splitOnDot_no_dot (s : String) (h : '.' ∉ s.data) : splitOnDot s = [s] := by
  unfold splitOnDot
  rw [splitDot_no_dot s.data h]
  simp

/-! Helper lemmas about the dispatcher. -/

/-- Computation of `dispatch` once routing data is known. -/
theorem dispatch_route (server : Server) (req : jsonRequest) (sname mname : String)
    (svc : service) (mt : methodType)
    (h0 : (splitOnDot req.Method).get? 0 = some sname)
    (hs : List.lookup sname server.serviceMap = some svc)
    (h1 : (splitOnDot req.Method).get? 1 = some mname)
    (hm : List.lookup mname svc.methods = some mt) :
    dispatch server req =
      match getParams req.Params mt.argTypes with
      | .panicked => .panicked server
      | .err msg => .wrote (.fixedError msg) server
      | .ok args => runMethod server req sname mname svc mt args := by
  simp only [dispatch, h0, hs, h1, hm]

/-- Computation of `dispatch` on a registry miss for the service name. -/
theorem dispatch_service_miss (server : Server) (req : jsonRequest) (sname : String)
    (h0 : (splitOnDot req.Method).get? 0 = some sname)
    (hs : List.lookup sname server.serviceMap = none) :
    dispatch server req = .wrote (.fixedError "Service not found.") server := by
  simp only [dispatch, h0, hs]

/-- Computation of `dispatch` on a method-table miss. -/
theorem dispatch_method_miss (server : Server) (req : jsonRequest) (sname mname : String)
    (svc : service)
    (h0 : (splitOnDot req.Method).get? 0 = some sname)
    (hs : List.lookup sname server.serviceMap = some svc)
    (h1 : (splitOnDot req.Method).get? 1 = some mname)
    (hm : List.lookup mname svc.methods = none) :
    dispatch server req = .wrote (.fixedError "Method not found.") server := by
  simp only [dispatch, h0, hs, h1, hm]

/-- Inversion: a dispatched envelope means every stage succeeded, and the
invocation step produced the write. -/
theorem dispatch_envelope_inv (server : Server) (req : jsonRequest)
    (resp : jsonResponse) (s' : Server)
    (h : dispatch server req = .wrote (.envelope resp) s') :
    ∃ sname svc mname mt args,
      (splitOnDot req.Method).get? 0 = some sname ∧
      List.lookup sname server.serviceMap = some svc ∧
      (splitOnDot req.Method).get? 1 = some mname ∧
      List.lookup mname svc.methods = some mt ∧
      getParams req.Params mt.argTypes = .ok args ∧
      runMethod server req sname mname svc mt args = .wrote (.envelope resp) s' := by
  simp only [dispatch] at h
  split at h
  · exact absurd h (by simp)
  · rename_i sname h0
    split at h
    · simp at h
    · rename_i svc hs
      split at h
      · exact absurd h (by simp)
      · rename_i mname h1
        split at h
        · simp at h
        · rename_i mt hm
          split at h
          · exact absurd h (by simp)
          · simp at h
          · rename_i args hp
            exact ⟨sname, svc, mname, mt, args, h0, hs, h1, hm, hp, h⟩

/-- A fixed-literal error write leaves the server (and so every call
counter) unchanged. -/
theorem dispatch_fixedError_unchanged (server : Server) (req : jsonRequest)
    (msg : String) (s' : Server)
    (h : dispatch server req = .wrote (.fixedError msg) s') : s' = server := by
  simp only [dispatch] at h
  split at h
  · exact absurd h (by simp)
  · split at h
    · cases h
      rfl
    · split at h
      · exact absurd h (by simp)
      · split at h
        · cases h
          rfl
        · split at h
          · exact absurd h (by simp)
          · cases h
            rfl
          · simp [runMethod] at h

/-- A panic escapes before any counter increment: the state is unchanged. -/
theorem dispatch_panicked_unchanged (server : Server) (req : jsonRequest) (s' : Server)
    (h : dispatch server req = .panicked s') : s' = server := by
  simp only [dispatch] at h
  split at h
  · cases h
    rfl
  · split at h
    · simp at h
    · split at h
      · cases h
        rfl
      · split at h
        · simp at h
        · split at h
          · cases h
            rfl
          · simp at h
          · simp [runMethod] at h

/-- Characterization of the invocation step when the invoked method's error
value is nil or has an empty description (`errmsg == ""`): a success
envelope carrying the first return value. -/
theorem runMethod_success (server : Server) (req : jsonRequest) (sname mname : String)
    (svc : service) (mt : methodType) (args : List GoValue)
    (h : (mt.fn (svc.rcvr :: args)).2 = none ∨ (mt.fn (svc.rcvr :: args)).2 = some "") :
    runMethod server req sname mname svc mt args
      = .wrote (.envelope ⟨req.Id, some (mt.fn (svc.rcvr :: args)).1, none⟩)
          ⟨bumpService server.serviceMap sname mname⟩ := by
  rcases h with h | h <;> simp [runMethod, h]

/-- Characterization of the invocation step when the invoked method's error
value has a non-empty description: an error envelope with no result. -/
theorem runMethod_error (server : Server) (req : jsonRequest) (sname mname : String)
    (svc : service) (mt : methodType) (args : List GoValue) (e : String)
    (h : (mt.fn (svc.rcvr :: args)).2 = some e) (he : e ≠ "") :
    runMethod server req sname mname svc mt args
      = .wrote (.envelope ⟨req.Id, none, some e⟩)
          ⟨bumpService server.serviceMap sname mname⟩ := by
  simp [runMethod, h, he]

/-! Concrete registry and requests used by the witnesses and
counterexamples. -/

/-- Method body used in the examples: first return value the string
`"r"`, second return value a non-nil error whose description is empty. -/
def exFn : List GoValue → GoValue × Option String := fun _ => (.vString "r", some "")

/-- Descriptor of a nullary example method. -/
def exMt : methodType := ⟨[], .goString, 0, exFn⟩

/-- Example service `"S"` with the single method `"M"`. -/
def exSvc : service := ⟨"S", .vNil, [("M", exMt)]⟩

/-- Example server whose registry holds service `"S"`. -/
def exServer : Server := ⟨[("S", exSvc)]⟩

/-- Example request targeting `"S.M"` with id 7 and an empty parameter
array. -/
def exReq : jsonRequest := ⟨some (.num 7 true), "S.M", some (.arr [])⟩

/-- Request with a non-null id targeting an unregistered service. -/
def c1req : jsonRequest := ⟨some (.num 5 true), "A.B", some (.arr [])⟩

/-- Request whose method string has no dot but names the registered
service `"S"`. -/
def c2req : jsonRequest := ⟨some (.num 0 true), "S", some (.arr [])⟩

/-! Claim theorems. -/

/-- C1, counterexample: a request with id 5 that misses the registry is
answered by the fixed `sendError` literal, whose id is null, not the echo
of the request's id — refuting the claim that the id is echoed verbatim on
service-lookup failures. -/
theorem c1_counterexample :
    ServeHTTP NewServer (some c1req) = .wrote (.fixedError "Service not found.") NewServer ∧
    writtenId (.fixedError "Service not found.") ≠ c1req.Id := by
  refine ⟨rfl, ?_⟩
  simp [writtenId, c1req]

/-- C1, amended: every dispatched request that fails at service lookup,
method lookup, or parameter decoding is answered by the fixed `sendError`
literal, whose id field is always null; the request's id is not echoed on
these paths. -/
theorem c1_error_paths_null_id (server : Server) (req : jsonRequest) :
    (∀ sname, (splitOnDot req.Method).get? 0 = some sname →
      List.lookup sname server.serviceMap = none →
      ServeHTTP server (some req) = .wrote (.fixedError "Service not found.") server) ∧
    (∀ sname svc mname,
      (splitOnDot req.Method).get? 0 = some sname →
      List.lookup sname server.serviceMap = some svc →
      (splitOnDot req.Method).get? 1 = some mname →
      List.lookup mname svc.methods = none →
      ServeHTTP server (some req) = .wrote (.fixedError "Method not found.") server) ∧
    (∀ sname svc mname mt msg,
      (splitOnDot req.Method).get? 0 = some sname →
      List.lookup sname server.serviceMap = some svc →
      (splitOnDot req.Method).get? 1 = some mname →
      List.lookup mname svc.methods = some mt →
      getParams req.Params mt.argTypes = .err msg →
      ServeHTTP server (some req) = .wrote (.fixedError msg) server) ∧
    (∀ msg, writtenId (.fixedError msg) = none) := by
  refine ⟨?_, ?_, ?_, fun _ => rfl⟩
  · intro sname h0 hs
    exact dispatch_service_miss server req sname h0 hs
  · intro sname svc mname h0 hs h1 hm
    exact dispatch_method_miss server req sname mname svc h0 hs h1 hm
  · intro sname svc mname mt msg h0 hs h1 hm hp
    have hd := dispatch_route server req sname mname svc mt h0 hs h1 hm
    simp only [hp] at hd
    exact hd

/-- C1, witness: the amended theorem applied to the concrete missing
service. -/
theorem c1_error_paths_null_id_witness :
    ServeHTTP NewServer (some c1req) = .wrote (.fixedError "Service not found.") NewServer :=
  (c1_error_paths_null_id NewServer c1req).1 "A" rfl rfl

/-- C2: with service `"S"` registered, a request whose method string is
`"S"` (no dot) passes the service lookup and then panics with an index out
of range on `serviceMethod[1]` — the dispatcher does not run to completion
and writes nothing, refuting the claim that no panic escapes its
boundary. -/
theorem c2_dotless_method_panics :
    ServeHTTP exServer (some c2req) = .panicked exServer := rfl

/-- C3: when the request body fails to decode, the handler writes the
fixed literal with message `"Invalid JSON-RPC."` and null id, for every
registry state, and returns the registry (with all call counters)
unchanged — no registry access, invocation, or counter increment occurs. -/
theorem c3_invalid_json_fixed_error (server : Server) :
    ServeHTTP server none = .wrote (.fixedError "Invalid JSON-RPC.") server ∧
    writtenId (.fixedError "Invalid JSON-RPC.") = none :=
  ⟨rfl, rfl⟩

/-- C4, counterexample: the example method returns a non-nil error whose
description string is empty; the dispatcher nevertheless produces a
success envelope carrying the result and no error — refuting the claim
that a reported error always yields an error envelope. -/
theorem c4_counterexample :
    (exMt.fn (exSvc.rcvr :: [])).2 = some "" ∧
    some "" ≠ (none : Option String) ∧
    ServeHTTP exServer (some exReq)
      = .wrote (.envelope ⟨exReq.Id, some (.vString "r"), none⟩)
          ⟨bumpService exServer.serviceMap "S" "M"⟩ := by
  refine ⟨rfl, by simp, rfl⟩

/-- C4, amended: on every completed dispatch exactly one of result and
error is populated; an error envelope (carrying the reported description,
no result) is produced exactly when the invoked method's error value has a
non-empty description; otherwise — nil error or non-nil error with empty
description — a success envelope carries the first return value and no
error. -/
theorem c4_result_error_exclusive (server : Server) (req : jsonRequest)
    (sname mname : String) (svc : service) (mt : methodType) (args : List GoValue)
    (h0 : (splitOnDot req.Method).get? 0 = some sname)
    (hs : List.lookup sname server.serviceMap = some svc)
    (h1 : (splitOnDot req.Method).get? 1 = some mname)
    (hm : List.lookup mname svc.methods = some mt)
    (hp : getParams req.Params mt.argTypes = .ok args) :
    ∃ resp, ServeHTTP server (some req)
        = .wrote (.envelope resp) ⟨bumpService server.serviceMap sname mname⟩ ∧
      resp.Id = req.Id ∧
      (∀ e, (mt.fn (svc.rcvr :: args)).2 = some e → e ≠ "" →
        resp.Error = some e ∧ resp.Result = none) ∧
      ((mt.fn (svc.rcvr :: args)).2 = none ∨ (mt.fn (svc.rcvr :: args)).2 = some "" →
        resp.Error = none ∧ resp.Result = some (mt.fn (svc.rcvr :: args)).1) ∧
      (resp.Result.isSome ↔ ¬ resp.Error.isSome) := by
  have hd := dispatch_route server req sname mname svc mt h0 hs h1 hm
  simp only [hp] at hd
  rcases he : (mt.fn (svc.rcvr :: args)).2 with _ | e
  · refine ⟨⟨req.Id, some (mt.fn (svc.rcvr :: args)).1, none⟩, ?_, rfl, ?_, ?_, by simp⟩
    · show dispatch server req = _
      rw [hd, runMethod_success server req sname mname svc mt args (Or.inl he)]
    · intro e h
      exact absurd h (by simp)
    · intro _
      exact ⟨rfl, rfl⟩
  · by_cases hee : e = ""
    · subst hee
      refine ⟨⟨req.Id, some (mt.fn (svc.rcvr :: args)).1, none⟩, ?_, rfl, ?_, ?_, by simp⟩
      · show dispatch server req = _
        rw [hd, runMethod_success server req sname mname svc mt args (Or.inr he)]
      · intro e h hne
        cases h
        exact absurd rfl hne
      · intro _
        exact ⟨rfl, rfl⟩
    · refine ⟨⟨req.Id, none, some e⟩, ?_, rfl, ?_, ?_, by simp⟩
      · show dispatch server req = _
        rw [hd, runMethod_error server req sname mname svc mt args e he hee]
      · intro e' h _
        cases h
        exact ⟨rfl, rfl⟩
      · intro h
        rcases h with h | h
        · exact absurd h (by simp)
        · cases h
          exact absurd rfl hee

/-- C4, witness: the amended theorem applied to the example server, whose
method reports an error with empty description. -/
theorem c4_result_error_exclusive_witness :
    ∃ resp, ServeHTTP exServer (some exReq)
        = .wrote (.envelope resp) ⟨bumpService exServer.serviceMap "S" "M"⟩ ∧
      resp.Id = exReq.Id ∧
      (∀ e, (exMt.fn (exSvc.rcvr :: ([] : List GoValue))).2 = some e → e ≠ "" →
        resp.Error = some e ∧ resp.Result = none) ∧
      ((exMt.fn (exSvc.rcvr :: ([] : List GoValue))).2 = none ∨
          (exMt.fn (exSvc.rcvr :: ([] : List GoValue))).2 = some "" →
        resp.Error = none ∧ resp.Result = some (exMt.fn (exSvc.rcvr :: ([] : List GoValue))).1) ∧
      (resp.Result.isSome ↔ ¬ resp.Error.isSome) :=
  c4_result_error_exclusive exServer exReq "S" "M" exSvc exMt [] rfl rfl rfl rfl rfl

/-- C5: the parameter decoder fails with `"Incorrect number of
parameters."` exactly when the raw parameter count differs from the
declared argument count, and on any decoder failure the dispatcher answers
with the decoder's message without invoking the method (the server, hence
every call counter, is unchanged). -/
theorem c5_arity_error_iff :
    (∀ (params : List Json) (argTypes : List GoType),
      getParams (some (.arr params)) argTypes = .err "Incorrect number of parameters."
        ↔ params.length ≠ argTypes.length) ∧
    (∀ (server : Server) (req : jsonRequest) (sname mname : String) (svc : service)
        (mt : methodType) (msg : String),
      (splitOnDot req.Method).get? 0 = some sname →
      List.lookup sname server.serviceMap = some svc →
      (splitOnDot req.Method).get? 1 = some mname →
      List.lookup mname svc.methods = some mt →
      getParams req.Params mt.argTypes = .err msg →
      ServeHTTP server (some req) = .wrote (.fixedError msg) server) := by
  constructor
  · intro params argTypes
    constructor
    · intro h
      by_cases hl : params.length ≠ argTypes.length
      · exact hl
      · exfalso
        simp only [getParams, decodeRawList, if_neg hl] at h
        obtain ⟨k, hk⟩ := decodeLoop_error_shape argTypes params 0 _ h
        exact tmMsg_ne_arity k hk.symm
    · intro h
      simp [getParams, decodeRawList, if_pos h]
  · intro server req sname mname svc mt msg h0 hs h1 hm hp
    have hd := dispatch_route server req sname mname svc mt h0 hs h1 hm
    simp only [hp] at hd
    exact hd

/-- C5, witness: concrete arity mismatch (no parameters against one
declared argument, and one parameter against the example server's nullary
method). -/
theorem c5_arity_error_iff_witness :
    getParams (some (.arr [])) [GoType.goInt] = .err "Incorrect number of parameters." ∧
    ServeHTTP exServer (some ⟨some (.num 1 true), "S.M", some (.arr [.num 1 true])⟩)
      = .wrote (.fixedError "Incorrect number of parameters.") exServer := by
  constructor
  · exact (c5_arity_error_iff.1 [] [GoType.goInt]).mpr (by decide)
  · exact c5_arity_error_iff.2 exServer ⟨some (.num 1 true), "S.M", some (.arr [.num 1 true])⟩
      "S" "M" exSvc exMt "Incorrect number of parameters." rfl rfl rfl rfl rfl

/-- C10: a non-nil error return whose description string is empty is
treated as success: the dispatcher produces a success envelope carrying
the method's first return value and no error. -/
theorem c10_empty_error_success (server : Server) (req : jsonRequest)
    (sname mname : String) (svc : service) (mt : methodType) (args : List GoValue)
    (res : GoValue)
    (h0 : (splitOnDot req.Method).get? 0 = some sname)
    (hs : List.lookup sname server.serviceMap = some svc)
    (h1 : (splitOnDot req.Method).get? 1 = some mname)
    (hm : List.lookup mname svc.methods = some mt)
    (hp : getParams req.Params mt.argTypes = .ok args)
    (hf : mt.fn (svc.rcvr :: args) = (res, some "")) :
    ServeHTTP server (some req)
      = .wrote (.envelope ⟨req.Id, some res, none⟩)
          ⟨bumpService server.serviceMap sname mname⟩ := by
  have hd := dispatch_route server req sname mname svc mt h0 hs h1 hm
  simp only [hp] at hd
  show dispatch server req = _
  rw [hd, runMethod_success server req sname mname svc mt args (Or.inr (by rw [hf]))]
  rw [hf]

/-- C10, witness: the theorem applied to the example server, whose method
returns `("r", error with empty description)`. -/
theorem c10_empty_error_success_witness :
    ServeHTTP exServer (some exReq)
      = .wrote (.envelope ⟨exReq.Id, some (.vString "r"), none⟩)
          ⟨bumpService exServer.serviceMap "S" "M"⟩ :=
  c10_empty_error_success exServer exReq "S" "M" exSvc exMt [] (.vString "r")
    rfl rfl rfl rfl rfl rfl

/-- Example method taking one integer argument, used to exhibit the
null-parameter panic. -/
def nullArgMt : methodType := ⟨[.goInt], .goInt, 0, fun _ => (.vInt 0, none)⟩

/-- Server whose service `"N"` has the one-integer-argument method
`"I"`. -/
def nullServer : Server := ⟨[("N", ⟨"N", .vNil, [("I", nullArgMt)]⟩)]⟩

/-- Request passing JSON null as the single (scalar) parameter of
`"N.I"`. -/
def nullReq : jsonRequest := ⟨some (.num 3 true), "N.I", some (.arr [Json.null])⟩

/-- C6, counterexample: a JSON null supplied in a scalar parameter
position neither is accepted nor fails with the type-mismatch message —
the generic decode yields the nil interface and the reflect call on it
panics, so the whole dispatch panics — refuting the claim that any
non-matching, non-coercible combination fails with
`"Type mismatch parameter {i+1}."`. -/
theorem c6_counterexample :
    decodeParam 0 GoType.goInt Json.null = .panicked ∧
    (∀ v, ParamDecode.panicked ≠ ParamDecode.ok v) ∧
    ParamDecode.panicked ≠ ParamDecode.err (tmMsg 1) ∧
    ServeHTTP nullServer (some nullReq) = .panicked nullServer := by
  refine ⟨rfl, ?_, ?_, rfl⟩
  · intro v h
    cases h
  · intro h
    cases h

/-- C6, amended: per-position parameter decoding policy.  A pointer/object
shape is decoded structurally, succeeding exactly when the structural
unmarshal succeeds and otherwise failing with the 1-based type-mismatch
message.  A scalar shape panics on JSON null (reflect on the nil
interface); otherwise it accepts on exact dynamic-type equality, accepts a
float for the integer target by truncating it, and fails every remaining
combination with the 1-based type-mismatch message. -/
theorem c6_param_decode_policy (i : Nat) (argType : GoType) (raw : Json) :
    (∀ en ep fs, argType = .goPtr en ep fs →
      ((∃ v, decodeParam i argType raw = .ok v) ↔ (structUnmarshal fs raw).isSome) ∧
      (∀ v, structUnmarshal fs raw = some v → decodeParam i argType raw = .ok (.vPtr v)) ∧
      (structUnmarshal fs raw = none → decodeParam i argType raw = .err (tmMsg (i + 1)))) ∧
    (isScalar argType = true →
      (raw = .null → decodeParam i argType raw = .panicked) ∧
      (typeEq (genericDecode raw) argType = true →
        decodeParam i argType raw = .ok (genericDecode raw)) ∧
      (∀ q, genericDecode raw = .vFloat64 q → argType = .goInt →
        decodeParam i argType raw = .ok (.vInt (ratTrunc q))) ∧
      (raw ≠ .null →
        typeEq (genericDecode raw) argType = false →
        ¬(isFloatVal (genericDecode raw) = true ∧ argType = .goInt) →
        decodeParam i argType raw = .err (tmMsg (i + 1))) ∧
      (∀ m, decodeParam i argType raw = .err m → m = tmMsg (i + 1))) := by
  constructor
  · intro en ep fs hptr
    subst hptr
    refine ⟨?_, ?_, ?_⟩
    · constructor
      · rintro ⟨v, hv⟩
        simp only [decodeParam] at hv
        rcases hs : structUnmarshal fs raw with _ | w <;> rw [hs] at hv
        · cases hv
        · simp
      · intro hsome
        rcases Option.isSome_iff_exists.mp hsome with ⟨w, hw⟩
        exact ⟨.vPtr w, by simp [decodeParam, hw]⟩
    · intro v hv
      simp [decodeParam, hv]
    · intro hnone
      simp [decodeParam, hnone]
  · intro hsc
    rcases argType with _ | _ | _ | _ | ⟨en, ep, fs⟩
    case goPtr => simp [isScalar] at hsc
    all_goals {
      refine ⟨?_, ?_, ?_, ?_, fun m hm => decodeParam_error_shape i _ raw m hm⟩
      · intro hraw
        subst hraw
        simp [decodeParam, genericDecode]
      · intro hte
        simp only [decodeParam]
        rcases hg : genericDecode raw with _ | b | n | q | s | l | l | l | p <;>
          simp_all [typeEq]
      · intro q hq hti
        first
          | (cases hti
             simp only [decodeParam]
             rw [hq]
             simp [typeEq])
          | exact absurd hti (by simp)
      · intro hnn hte hnf
        simp only [decodeParam]
        rcases hg : genericDecode raw with _ | b | n | q | s | l | l | l | p
        · exact absurd ((genericDecode_vNil_iff raw).mp hg) hnn
        all_goals simp_all [typeEq, isFloatVal]
    }

/-- C6, witness: a scalar supplied where a struct is expected fails with
the 1-based mismatch message; a fractional float supplied for an `int`
argument is accepted and truncated; an exactly-typed string is accepted;
a null scalar parameter panics; a string supplied for a bool argument
fails with the 1-based mismatch message. -/
theorem c6_param_decode_policy_witness :
    decodeParam 0 (.goPtr "A" "main" [("x", .goString)]) (.str "s") = .err (tmMsg 1) ∧
    decodeParam 1 .goInt (.num (mkRat 5 2) false) = .ok (.vInt (ratTrunc (mkRat 5 2))) ∧
    ratTrunc (mkRat 5 2) = 2 ∧
    decodeParam 2 .goString (.str "hello") = .ok (.vString "hello") ∧
    decodeParam 3 .goInt Json.null = .panicked ∧
    decodeParam 4 .goBool (.str "x") = .err (tmMsg 5) := by
  refine ⟨?_, ?_, by decide, ?_, ?_, ?_⟩
  · exact ((c6_param_decode_policy 0 (.goPtr "A" "main" [("x", .goString)]) (.str "s")).1
      "A" "main" [("x", .goString)] rfl).2.2 rfl
  · exact (((c6_param_decode_policy 1 .goInt (.num (mkRat 5 2) false)).2 rfl).2.2.1)
      (mkRat 5 2) rfl rfl
  · exact (((c6_param_decode_policy 2 .goString (.str "hello")).2 rfl).2.1) rfl
  · exact (((c6_param_decode_policy 3 .goInt Json.null).2 rfl).1) rfl
  · exact (((c6_param_decode_policy 4 .goBool (.str "x")).2 rfl).2.2.2.1)
      (by simp) rfl (by simp [genericDecode, isFloatVal])

/-- C7: call counters change only at the invocation step.  Every error
write and every panic leaves the server — hence every call counter —
unchanged, and every completed envelope means routing and parameter
decoding succeeded and the routed method's counter was incremented exactly
once, all other counters unchanged. -/
theorem c7_call_counter :
    (∀ (server : Server) (decoded : Option jsonRequest) (msg : String) (s' : Server),
      ServeHTTP server decoded = .wrote (.fixedError msg) s' → s' = server) ∧
    (∀ (server : Server) (decoded : Option jsonRequest) (s' : Server),
      ServeHTTP server decoded = .panicked s' → s' = server) ∧
    (∀ (server : Server) (req : jsonRequest) (resp : jsonResponse) (s' : Server),
      ServeHTTP server (some req) = .wrote (.envelope resp) s' →
      ∃ sname mname svc mt,
        (splitOnDot req.Method).get? 0 = some sname ∧
        (splitOnDot req.Method).get? 1 = some mname ∧
        List.lookup sname server.serviceMap = some svc ∧
        List.lookup mname svc.methods = some mt ∧
        callCount s' sname mname = callCount server sname mname + 1 ∧
        (∀ sn mn, sn ≠ sname ∨ mn ≠ mname → callCount s' sn mn = callCount server sn mn)) := by
  refine ⟨?_, ?_, ?_⟩
  · intro server decoded msg s' h
    rcases decoded with _ | req
    · simp only [ServeHTTP] at h
      cases h
      rfl
    · exact dispatch_fixedError_unchanged server req msg s' h
  · intro server decoded s' h
    rcases decoded with _ | req
    · simp [ServeHTTP] at h
    · exact dispatch_panicked_unchanged server req s' h
  · intro server req resp s' h
    obtain ⟨sname, svc, mname, mt, args, h0, hs, h1, hm, hp, hr⟩ :=
      dispatch_envelope_inv server req resp s' h
    have hs' : s' = ⟨bumpService server.serviceMap sname mname⟩ := by
      simp only [runMethod] at hr
      cases hr
      rfl
    refine ⟨sname, mname, svc, mt, h0, h1, hs, hm, ?_, ?_⟩
    · rw [hs']
      exact callCount_bump_self server sname mname svc mt hs hm
    · intro sn mn hne
      rw [hs']
      exact callCount_bump_other server sname mname sn mn hne

/-- C7, witness: the completed dispatch on the example server increments
the counter of `"S"."M"`. -/
theorem c7_call_counter_witness :
    ∃ sname mname svc mt,
      (splitOnDot exReq.Method).get? 0 = some sname ∧
      (splitOnDot exReq.Method).get? 1 = some mname ∧
      List.lookup sname exServer.serviceMap = some svc ∧
      List.lookup mname svc.methods = some mt ∧
      callCount ⟨bumpService exServer.serviceMap "S" "M"⟩ sname mname
        = callCount exServer sname mname + 1 ∧
      (∀ sn mn, sn ≠ sname ∨ mn ≠ mname →
        callCount ⟨bumpService exServer.serviceMap "S" "M"⟩ sn mn = callCount exServer sn mn) :=
  c7_call_counter.2.2 exServer exReq ⟨exReq.Id, some (.vString "r"), none⟩
    ⟨bumpService exServer.serviceMap "S" "M"⟩ rfl

/-- C8: with a resolvable (non-empty) service name, registration returns
an error when the name is already bound or when no method is eligible, any
registration error leaves the registry unchanged, and a successful
registration implies the name was fresh and the eligible set non-empty —
so a duplicate name or a zero-method service is never inserted. -/
theorem c8_register_failure (server : Server) (rcvr : GoRcvr) (name : String) (useName : Bool)
    (hname : (if useName then name else rcvr.typeName) ≠ "") :
    ((List.lookup (if useName then name else rcvr.typeName) server.serviceMap).isSome →
      ∃ msg, register server rcvr name useName = .errOut msg server) ∧
    (installMethods rcvr.methods = [] →
      ∃ msg, register server rcvr name useName = .errOut msg server) ∧
    (∀ msg s', register server rcvr name useName = .errOut msg s' → s' = server) ∧
    (∀ s', register server rcvr name useName = .ok s' →
      List.lookup (if useName then name else rcvr.typeName) server.serviceMap = none ∧
      installMethods rcvr.methods ≠ []) := by
  refine ⟨?_, ?_, ?_, ?_⟩
  · intro hdup
    by_cases hexp : (rcvr.typPkgPath ≠ ""
        && !(isExported (if useName then name else rcvr.typeName)) && !useName) = true
    · exact ⟨"rpc Register: type " ++ (if useName then name else rcvr.typeName)
        ++ " is not exported", by simp only [register, if_neg hname, if_pos hexp]⟩
    · exact ⟨"rpc: service already defined: " ++ (if useName then name else rcvr.typeName),
        by simp only [register, if_neg hname, if_neg hexp, if_pos hdup]⟩
  · intro hempty
    by_cases hexp : (rcvr.typPkgPath ≠ ""
        && !(isExported (if useName then name else rcvr.typeName)) && !useName) = true
    · exact ⟨"rpc Register: type " ++ (if useName then name else rcvr.typeName)
        ++ " is not exported", by simp only [register, if_neg hname, if_pos hexp]⟩
    · by_cases hdup :
        ((List.lookup (if useName then name else rcvr.typeName) server.serviceMap).isSome) = true
      · exact ⟨"rpc: service already defined: " ++ (if useName then name else rcvr.typeName),
          by simp only [register, if_neg hname, if_neg hexp, if_pos hdup]⟩
      · refine ⟨"rpc Register: type " ++ (if useName then name else rcvr.typeName)
          ++ " has no exported methods of suitable type", ?_⟩
        simp only [register, if_neg hname, if_neg hexp, if_neg hdup, hempty]
        simp
  · intro msg s' h
    by_cases h0 : (if useName then name else rcvr.typeName) = ""
    · simp only [register, if_pos h0] at h
      cases h
    · simp only [register, if_neg h0] at h
      by_cases hexp : (rcvr.typPkgPath ≠ ""
          && !(isExported (if useName then name else rcvr.typeName)) && !useName) = true
      · rw [if_pos hexp] at h
        cases h
        rfl
      · rw [if_neg hexp] at h
        by_cases hdup : ((List.lookup (if useName then name else rcvr.typeName)
            server.serviceMap).isSome) = true
        · rw [if_pos hdup] at h
          cases h
          rfl
        · rw [if_neg hdup] at h
          by_cases hlen : (installMethods rcvr.methods).length = 0
          · rw [if_pos hlen] at h
            cases h
            rfl
          · rw [if_neg hlen] at h
            cases h
  · intro s' h
    by_cases h0 : (if useName then name else rcvr.typeName) = ""
    · simp only [register, if_pos h0] at h
      cases h
    · simp only [register, if_neg h0] at h
      by_cases hexp : (rcvr.typPkgPath ≠ ""
          && !(isExported (if useName then name else rcvr.typeName)) && !useName) = true
      · rw [if_pos hexp] at h
        cases h
      · rw [if_neg hexp] at h
        by_cases hdup : ((List.lookup (if useName then name else rcvr.typeName)
            server.serviceMap).isSome) = true
        · rw [if_pos hdup] at h
          cases h
        · rw [if_neg hdup] at h
          by_cases hlen : (installMethods rcvr.methods).length = 0
          · rw [if_pos hlen] at h
            cases h
          · constructor
            · rcases hl : List.lookup (if useName then name else rcvr.typeName)
                server.serviceMap with _ | v
              · rfl
              · exact absurd (by rw [hl]; rfl) hdup
            · intro contra
              exact hlen (by rw [contra]; rfl)

/-- C8, witness: re-registering the already-bound name `"S"` fails with
the registry unchanged, and registering a receiver with no eligible
methods into the empty registry fails with the registry unchanged. -/
theorem c8_register_failure_witness :
    (∃ msg, register exServer ⟨"S", "main", .vNil, []⟩ "" false = .errOut msg exServer) ∧
    (∃ msg, register NewServer ⟨"S", "main", .vNil, []⟩ "" false = .errOut msg NewServer) := by
  constructor
  · exact (c8_register_failure exServer ⟨"S", "main", .vNil, []⟩ "" false (by decide)).1 rfl
  · exact (c8_register_failure NewServer ⟨"S", "main", .vNil, []⟩ "" false (by decide)).2.1 rfl

/-- C9, counterexample: a dotless method string that misses the registry
is answered with `"Service not found."`, not `"Method not found."` as the
claim states. -/
theorem c9_counterexample :
    ServeHTTP NewServer (some ⟨some (.num 1 true), "Add", some (.arr [])⟩)
      = .wrote (.fixedError "Service not found.") NewServer ∧
    "Service not found." ≠ "Method not found." := by
  refine ⟨rfl, by decide⟩

/-- C9, amended: the dispatcher splits the method string on every `"."`,
using component 0 as the service name and component 1 as the method name;
a dotless method string splits into itself alone, so the service lookup is
on the whole string — a miss fails with `"Service not found."`, and a hit
panics on the missing second component. -/
theorem c9_split_semantics :
    (∀ s : String, '.' ∉ s.data → splitOnDot s = [s]) ∧
    (∀ (server : Server) (req : jsonRequest), '.' ∉ req.Method.data →
      List.lookup req.Method server.serviceMap = none →
      ServeHTTP server (some req) = .wrote (.fixedError "Service not found.") server) ∧
    (∀ (server : Server) (req : jsonRequest) (svc : service), '.' ∉ req.Method.data →
      List.lookup req.Method server.serviceMap = some svc →
      ServeHTTP server (some req) = .panicked server) := by
  refine ⟨splitOnDot_no_dot, ?_, ?_⟩
  · intro server req hnd hl
    have h0 : (splitOnDot req.Method).get? 0 = some req.Method := by
      rw [splitOnDot_no_dot req.Method hnd]
      rfl
    exact dispatch_service_miss server req req.Method h0 hl
  · intro server req svc hnd hl
    have hsp := splitOnDot_no_dot req.Method hnd
    show dispatch server req = _
    simp [dispatch, hsp, hl]

/-- C9, witness: the amended theorem applied to a concrete dotless miss. -/
theorem c9_split_semantics_witness :
    ServeHTTP NewServer (some ⟨none, "NoDot", none⟩)
      = .wrote (.fixedError "Service not found.") NewServer :=
  c9_split_semantics.2.1 NewServer ⟨none, "NoDot", none⟩ (by decide) rfl
